import Mathlib

/-!
# solwatch — verification of the subscription lifecycle engine

A shallow embedding of the Go sources of `0xsamyy/solwatch`:

* `internal/tracker` (file `handler.go`, package `tracker`): the `Subscriber`
  connection state machine (`Run`, `Stop`, `isNotif`, `shortAddr`);
* `internal/util` (in `bolt.go`, package `util`): the `Backoff` retry-delay
  generator (`NewBackoff`, `Next`, `Reset`, `pow`);
* `internal/store` (in `bolt.go`, package `store`): the Bolt-backed wallet
  store (`AddWallet`, `RemoveWallet`, `ListWallets`, `validateSolanaAddress`).

Modelling conventions:

* Go `float64` arithmetic in `Backoff` is modelled exactly over `ℚ`; the
  pseudo-random draw `rand.Float64()` is threaded as an explicit parameter
  `u` (the value of `(rand.Float64()*2-1)*jitter`), and `time.Duration`
  values are rationals counting nanoseconds (`timeSecond = 10^9`).
* `json.Unmarshal(raw, &m)` for `m : map[string]any` is modelled by an
  `Option Json` input: `none` is a byte sequence that fails to parse, and a
  parse that succeeds but is not a JSON object also makes `Unmarshal`
  return an error (both make `isNotif` return `false`).
* Go maps built by `encoding/json` keep the last duplicate key, hence
  `jLookup` searches the reversed field list.
-/

namespace Solwatch

/-- A JSON value, as produced by `encoding/json` into `any`. -/
inductive Json where
  | null : Json
  | bool (b : Bool) : Json
  | num (n : Int) : Json
  | str (s : String) : Json
  | arr (xs : List Json) : Json
  | obj (fields : List (String × Json)) : Json

/-- Key lookup in a decoded JSON object. `encoding/json` keeps the last
occurrence of a duplicated key, so we search the reversed list. -/
def jLookup (fields : List (String × Json)) (k : String) : Option Json :=
  fields.reverse.lookup k

/-- `charsPrefix pat l` : does `l` start with `pat`? -/
def charsPrefix : List Char → List Char → Bool
  | [], _ => true
  | _ :: _, [] => false
  | a :: as, b :: bs => a = b && charsPrefix as bs

/-- `hasSubstr hay pat` : does `pat` occur contiguously in `hay`?
(Embeds Go `strings.Contains` for a non-empty pattern.) -/
def hasSubstr : List Char → List Char → Bool
  | hay, pat =>
    match hay with
    | [] => pat.isEmpty
    | _ :: t => charsPrefix pat hay || hasSubstr t pat

/-- The pattern looked for by `isNotif` in the lowered `method` field. -/
def accountPat : List Char := "account".data

/-- `strings.ToLower`, modelled characterwise (the method names the code
inspects are ASCII, where Go and `Char.toLower` agree). -/
def lowerChars (cs : List Char) : List Char := cs.map Char.toLower

/-- The body of `isNotif` once `json.Unmarshal` has produced the map `m`:
1. a top-level `"result"` key means subscribe ACK — not a notification;
2. a `"method"` string containing `"account"` (case-insensitive) together
   with a `"params"` key is an update;
3. fallback: a `"params"` object that itself has a `"result"` key is an
   update;
4. anything else is not. -/
def isNotifObj (m : List (String × Json)) : Bool :=
  if (jLookup m "result").isSome then false
  else if (match jLookup m "method" with
           | some (Json.str meth) =>
             hasSubstr (lowerChars meth.data) accountPat && (jLookup m "params").isSome
           | _ => false) then true
  else match jLookup m "params" with
       | some (Json.obj p) => (jLookup p "result").isSome
       | _ => false

/-- `isNotif` from `internal/tracker`: `none` models a byte sequence
`json.Unmarshal` rejects; a non-object value also makes `Unmarshal` into a
`map[string]any` fail, so only objects reach `isNotifObj`. -/
def isNotif : Option Json → Bool
  | none => false
  | some (Json.obj m) => isNotifObj m
  | some _ => false

/-! ## Backoff (package `util`)

Durations are rationals counting nanoseconds; `float64` arithmetic is
modelled exactly over `ℚ`; the jitter draw `u = (rand.Float64()*2-1)*jitter`
is an explicit parameter of `backoffNext`. The final Go conversion
`time.Duration(backoff)` truncates fractional nanoseconds; it is dropped
here (all claims are inequalities preserved by that truncation since the
`min` floor is applied before the conversion). -/

/-- `time.Second` in nanoseconds. -/
def timeSecond : ℚ := 1000000000

/-- The state of a `util.Backoff` (the mutex only serializes access and has
no sequential content). -/
structure Backoff where
  min : ℚ
  max : ℚ
  factor : ℚ
  jitter : ℚ
  attempt : ℕ

/-- `util.pow`: `result := 1`, then `result *= base` once per loop
iteration; `int(exp)` of the float `float64(attempt)` is exactly the
attempt counter. -/
def powGo (base : ℚ) : ℕ → ℚ
  | 0 => 1
  | n + 1 => powGo base n * base

/-- `util.NewBackoff`: parameter sanitization, in source order. -/
def NewBackoff (min' max' factor' jitter' : ℚ) : Backoff :=
  let m := if min' ≤ 0 then timeSecond else min'
  let M := if max' < m then m else max'
  let f := if factor' < 11 / 10 then 2 else factor'
  let j0 := if jitter' < 0 then 0 else jitter'
  let j := if j0 > 1 then 1 else j0
  { min := m, max := M, factor := f, jitter := j, attempt := 0 }

/-- The pre-jitter delay `min(m * f^n, M)` computed by `Next` at attempt
count `n` (the capped exponential step, before jitter and the floor). -/
def rawDelay (b : Backoff) (n : ℕ) : ℚ :=
  let backoff := b.min * powGo b.factor n
  if backoff > b.max then b.max else backoff

/-- `util.Backoff.Next`, with the jitter draw `u ∈ [-jitter, +jitter]`
passed in. Returns the delay and the updated state. -/
def backoffNext (b : Backoff) (u : ℚ) : ℚ × Backoff :=
  let raw := rawDelay b b.attempt
  let scaled := if b.jitter > 0 then raw * (1 + u) else raw
  let res := if scaled < b.min then b.min else scaled
  (res, { b with attempt := b.attempt + 1 })

/-- `util.Backoff.Reset`: clears the attempt counter. -/
def backoffReset (b : Backoff) : Backoff :=
  { b with attempt := 0 }

/-! ## Subscriber stop state (package `tracker`)

`Stop` is guarded by a `sync.Once`; Go's `Once.Do` serializes concurrent
callers, so any number of concurrent `Stop` calls execute as some sequence
of `subStop` applications. Closing an already-closed Go channel panics, so
`closeCount` records how many times `close(s.stopCh)` has run: a state with
`closeCount > 1` would be a panic. -/

/-- The stop-relevant state of a `tracker.Subscriber`. -/
structure SubState where
  shouldOpen : Bool
  stopOnceDone : Bool
  stopChClosed : Bool
  closeCount : ℕ
deriving DecidableEq

/-- `tracker.NewSubscriber`: `shouldOpen` starts true, `stopCh` fresh,
`stopOnce` unused. -/
def newSubState : SubState :=
  { shouldOpen := true, stopOnceDone := false, stopChClosed := false, closeCount := 0 }

/-- `tracker.Subscriber.Stop`: the `sync.Once` body runs only the first
time; it stores `shouldOpen = false` and closes `stopCh`. -/
def subStop (s : SubState) : SubState :=
  if s.stopOnceDone then s
  else { shouldOpen := false, stopOnceDone := true, stopChClosed := true,
         closeCount := s.closeCount + 1 }

/-- `n` sequential (or, by `sync.Once` mutual exclusion, serialized
concurrent) calls to `Stop`. -/
def subStopN : ℕ → SubState → SubState
  | 0, s => s
  | n + 1, s => subStopN n (subStop s)

/-! ## Subscriber.Run (package `tracker`)

`Run` is a retry loop interacting with the network and with the stop
signal. The embedding interprets one loop iteration over an environment
record `IterIn` that fixes what the outside world does at each of the
loop's blocking points:

* `stopAtTop` — whether `ctx.Done()`/`stopCh` is already closed when the
  loop-top `select` runs;
* `dial` — the outcome of `websocket.Dialer.DialContext`;
* `write` — the outcome of `conn.WriteJSON(subMsg)`;
* `reads` — the messages `conn.ReadMessage` delivers (each given as the
  `Option Json` the parse produces) before the read that fails; the read
  loop in the source only exits by returning a read error, so `readErr`
  is always non-nil when the teardown code runs;
* `stopInDialWait`, `stopInWriteWait`, `stopInReadWait` — whether the stop
  signal (or context cancellation) has fired by the time the corresponding
  backoff `select` runs;
* `u` — the jitter draw of the (at most one) `bo.Next()` call of the
  iteration.

Stop observations are modelled at the source's own checkpoints (the
`select` statements); a stop that fires between a checkpoint and the next
blocking call is visible at the next checkpoint, exactly as in the code. -/

/-- Result of `websocket.Dialer.DialContext`. -/
inductive DialR where
  | ok : DialR
  | err : DialR
deriving DecidableEq

/-- Result of `conn.WriteJSON`. -/
inductive WriteR where
  | ok : WriteR
  | err : WriteR
deriving DecidableEq

/-- Environment choices for one iteration of the `Run` retry loop. -/
structure IterIn where
  stopAtTop : Bool
  dial : DialR
  stopInDialWait : Bool
  write : WriteR
  stopInWriteWait : Bool
  reads : List (Option Json)
  stopInReadWait : Bool
  u : ℚ

/-- `tracker.Subscriber.shortAddr`. -/
def shortAddr (addr : String) : String :=
  if addr.length < 4 then addr else addr.take 4 ++ "..."

/-- The one-line HTML message passed to `ActivityNotify` on activity. -/
def activityMsg (addr : String) : String :=
  "activity detected: <a href=\"https://solscan.io/account/" ++ addr ++ "\">"
    ++ shortAddr addr ++ "</a>"

/-- The notifications emitted by the read loop for the messages it reads:
one `activityMsg` per message `isNotif` classifies as an update. -/
def readLoopNotifs (addr : String) (msgs : List (Option Json)) : List String :=
  msgs.filterMap (fun j => if isNotif j then some (activityMsg addr) else none)

/-- Did the loop iteration return from `Run`, or continue with the next
iteration? -/
inductive Outcome where
  | ret : Outcome
  | cont : Outcome
deriving DecidableEq

/-- Observable effects and final state of one iteration of the `Run`
loop. `atSubscribe` records `(open, backoff state)` at the moment
`conn.WriteJSON(subMsg)` is issued (`none` when no subscribe was sent). -/
structure IterRes where
  outcome : Outcome
  openOut : Bool
  boOut : Backoff
  dialed : Bool
  atSubscribe : Option (Bool × Backoff)
  notifs : List String

/-- One iteration of the retry loop in `tracker.Subscriber.Run`, from the
loop-top `select` to `return` or to the bottom of the loop. -/
def runIter (addr : String) (openIn : Bool) (bo : Backoff) (it : IterIn) : IterRes :=
  if it.stopAtTop then
    -- loop-top select: ctx.Done or stopCh fires → return
    { outcome := .ret, openOut := openIn, boOut := bo, dialed := false,
      atSubscribe := none, notifs := [] }
  else
    match it.dial with
    | .err =>
      -- dial error: wait := bo.Next(); select ctx/stop/timer
      let bo1 := (backoffNext bo it.u).2
      { outcome := if it.stopInDialWait then .ret else .cont,
        openOut := openIn, boOut := bo1, dialed := true,
        atSubscribe := none, notifs := [] }
    | .ok =>
      -- connected: s.open.Store(true); bo.Reset()
      let bo1 := backoffReset bo
      match it.write with
      | .err =>
        -- subscribe write failed: open := false, close, bo.Next, select
        let bo2 := (backoffNext bo1 it.u).2
        { outcome := if it.stopInWriteWait then .ret else .cont,
          openOut := false, boOut := bo2, dialed := true,
          atSubscribe := some (true, bo1), notifs := [] }
      | .ok =>
        -- read loop until the read error; teardown: open := false, close;
        -- readErr is never nil, so the backoff-and-select branch runs
        let notifs := readLoopNotifs addr it.reads
        let bo2 := (backoffNext bo1 it.u).2
        { outcome := if it.stopInReadWait then .ret else .cont,
          openOut := false, boOut := bo2, dialed := true,
          atSubscribe := some (true, bo1), notifs := notifs }

/-- Cumulative result of running the retry loop over a list of iteration
environments. `terminated` is false when the environment list was
exhausted with the loop still running. -/
structure RunRes where
  terminated : Bool
  openFinal : Bool
  boFinal : Backoff
  dials : ℕ
  notifs : List String

/-- The `Run` retry loop folded over its iteration environments, stopping
at the first iteration that returns. -/
def runLoop (addr : String) (openIn : Bool) (bo : Backoff) : List IterIn → RunRes
  | [] =>
    { terminated := false, openFinal := openIn, boFinal := bo, dials := 0, notifs := [] }
  | it :: rest =>
    let r := runIter addr openIn bo it
    match r.outcome with
    | .ret =>
      { terminated := true, openFinal := r.openOut, boFinal := r.boOut,
        dials := if r.dialed then 1 else 0, notifs := r.notifs }
    | .cont =>
      let rr := runLoop addr r.openOut r.boOut rest
      { terminated := rr.terminated, openFinal := rr.openFinal, boFinal := rr.boFinal,
        dials := (if r.dialed then 1 else 0) + rr.dials, notifs := r.notifs ++ rr.notifs }

/-- Stop has not fired at any of the iteration's observation points. -/
def noStop (it : IterIn) : Prop :=
  it.stopAtTop = false ∧ it.stopInDialWait = false ∧
  it.stopInWriteWait = false ∧ it.stopInReadWait = false

/-- The stop signal has fired by the time this iteration's blocking points
run: either it was already observable at the loop-top `select`, or it
fires mid-iteration, in which case whichever backoff `select` the control
path reaches observes it (`stopCh` stays closed once closed). -/
def stopFired (it : IterIn) : Prop :=
  it.stopAtTop = true ∨
  (it.stopInDialWait = true ∧ it.stopInWriteWait = true ∧ it.stopInReadWait = true)

/-! ## Wallet store (package `store`)

The `wallets` bucket of the Bolt database is modelled as an association
list from address to the stored RFC3339 timestamp string (bbolt keys are
unique; iteration order of the model list is irrelevant because
`ListWallets` sorts). `context.Context` cancellation is a boolean
`ctxDone`, checked where the source checks `ctx.Done()`. The `now`
timestamp written by `AddWallet` is a parameter. -/

/-- The base58 alphabet of `mr-tron/base58` (Bitcoin alphabet). -/
def b58Alphabet : List Char := "123456789ABCDEFGHJKLMNPQRSTUVWXYZabcdefghijkmnopqrstuvwxyz".data

/-- Digit value of one character, `none` for a character outside the
alphabet (decode error). -/
def b58Digit (c : Char) : Option ℕ :=
  let i := b58Alphabet.indexOf c
  if i < 58 then some i else none

/-- Little-endian base-256 digits, fuel-guided so that it is structural
(the fuel `n` bounds the digit count, since `(n+1)/256 ≤ n`). -/
def natToBytesLEFuel : ℕ → ℕ → List ℕ
  | 0, _ => []
  | _ + 1, 0 => []
  | fuel + 1, n + 1 => ((n + 1) % 256) :: natToBytesLEFuel fuel ((n + 1) / 256)

/-- Little-endian base-256 digits of a natural number (empty for 0). -/
def natToBytesLE (n : ℕ) : List ℕ := natToBytesLEFuel n n

/-- Big-endian byte representation of a natural number, no leading zeros. -/
def natToBytesBE (n : ℕ) : List ℕ := (natToBytesLE n).reverse

/-- Number of leading zero digits (leading `'1'` characters). -/
def leadingZeros : List ℕ → ℕ
  | [] => 0
  | d :: t => if d = 0 then leadingZeros t + 1 else 0

/-- `base58.Decode` of `mr-tron/base58`: every character must be an
alphabet character; the result is one zero byte per leading `'1'`
followed by the big-endian bytes of the accumulated base-58 value. -/
def b58Decode (s : String) : Option (List ℕ) := do
  let ds ← s.data.mapM b58Digit
  let val := ds.foldl (fun a d => a * 58 + d) 0
  pure (List.replicate (leadingZeros ds) 0 ++ natToBytesBE val)

/-- `unicode.IsSpace` restricted to the ASCII range (the Unicode space
category beyond ASCII plays no role in any claim). -/
def isSpaceGo (c : Char) : Bool :=
  c = ' ' || c = '\t' || c = '\n' || c = '\x0b' || c = '\x0c' || c = '\r'

/-- `strings.TrimSpace`: drop leading and trailing space characters. -/
def trimSpace (s : String) : String :=
  String.mk (((s.data.dropWhile isSpaceGo).reverse.dropWhile isSpaceGo).reverse)

/-- `strings.ContainsAny(addr, " \t\r\n")`. -/
def containsWhitespace (addr : String) : Bool :=
  addr.data.any (fun c => c = ' ' || c = '\t' || c = '\r' || c = '\n')

/-- `store.validateSolanaAddress`: non-empty, no whitespace, base58
decodes to exactly 32 bytes. -/
def validateSolanaAddress (addr : String) : Except String Unit :=
  if addr = "" then .error "empty"
  else if containsWhitespace addr then .error "contains whitespace"
  else match b58Decode addr with
    | none => .error "base58 decode"
    | some decoded =>
      if decoded.length = 32 then .ok () else .error "decoded length not 32"

/-- The `wallets` bucket: address keys with timestamp values. -/
abbrev Bucket := List (String × String)

/-- `store.Bolt.AddWallet`: trim, validate, check cancellation, then
insert the key only when absent (idempotent). -/
def addWallet (ctxDone : Bool) (now addr0 : String) (st : Bucket) : Except String Bucket :=
  let addr := trimSpace addr0
  match validateSolanaAddress addr with
  | .error e => .error ("invalid address: " ++ e)
  | .ok _ =>
    if ctxDone then .error "context done"
    else if (st.lookup addr).isSome then .ok st
    else .ok (st ++ [(addr, now)])

/-- `store.Bolt.RemoveWallet`: trim, validate, check cancellation, then
delete; bbolt `Delete` succeeds whether or not the key exists. -/
def removeWallet (ctxDone : Bool) (addr0 : String) (st : Bucket) : Except String Bucket :=
  let addr := trimSpace addr0
  match validateSolanaAddress addr with
  | .error e => .error ("invalid address: " ++ e)
  | .ok _ =>
    if ctxDone then .error "context done"
    else .ok (st.filter (fun kv => !(kv.1 == addr)))

/-- `store.Bolt.ListWallets`: check cancellation, collect every key, then
`sort.Strings` (UTF-8 byte order and codepoint order agree). -/
def listWallets (ctxDone : Bool) (st : Bucket) : Except String (List String) :=
  if ctxDone then .error "context done"
  else .ok ((st.map Prod.fst).mergeSort (fun a b => a ≤ b))

/-- A message that fails to parse as the expected envelope shape: either
the bytes are not valid JSON, or the value is not a JSON object (both make
`json.Unmarshal` into a `map[string]any` return an error). -/
def malformedMsg : Option Json → Bool
  | none => true
  | some (Json.obj _) => false
  | some _ => true

/-! ## Helper lemmas -/

theorem powGo_eq_pow (base : ℚ) (n : ℕ) : powGo base n = base ^ n := by
  induction n with
  | zero => rfl
  | succ n ih => rw [powGo, ih, pow_succ]

theorem rawDelay_eq_min (b : Backoff) (n : ℕ) :
    rawDelay b n = min (b.min * b.factor ^ n) b.max := by
  rw [rawDelay, powGo_eq_pow]
  split
  · rw [min_eq_right]
    linarith
  · rw [min_eq_left]
    linarith

theorem backoffNext_eq (b : Backoff) (u : ℚ) (h1 : -b.jitter ≤ u) (h2 : u ≤ b.jitter) :
    backoffNext b u
      = (max b.min (rawDelay b b.attempt * (1 + u)), { b with attempt := b.attempt + 1 }) := by
  have hj : 0 ≤ b.jitter := by linarith
  rw [backoffNext]
  rcases lt_or_eq_of_le hj with hj0 | hj0
  · simp only [if_pos hj0, Prod.mk.injEq, and_true]
    split
    · rw [max_eq_left]; linarith
    · rw [max_eq_right]; linarith
  · have hu0 : u = 0 := by rw [← hj0] at h1 h2; linarith
    simp only [← hj0, lt_irrefl, if_false, hu0, add_zero, mul_one, Prod.mk.injEq, and_true]
    split
    · rw [max_eq_left]; linarith
    · rw [max_eq_right]; linarith

theorem rawDelay_le_max (b : Backoff) (n : ℕ) :
    rawDelay b n ≤ b.max := by
  rw [rawDelay_eq_min]; exact min_le_right _ _

theorem rawDelay_nonneg (b : Backoff) (hm : 0 ≤ b.min) (hmM : b.min ≤ b.max)
    (hf : 0 ≤ b.factor) (n : ℕ) : 0 ≤ rawDelay b n := by
  rw [rawDelay_eq_min]
  exact le_min (mul_nonneg hm (pow_nonneg hf n)) (le_trans hm hmM)

theorem backoffNext_bounds (b : Backoff) (u : ℚ) (hm : 0 < b.min) (hmM : b.min ≤ b.max)
    (hf : 0 ≤ b.factor) (hj1 : b.jitter ≤ 1) (h1 : -b.jitter ≤ u) (h2 : u ≤ b.jitter) :
    b.min ≤ (backoffNext b u).1 ∧ (backoffNext b u).1 ≤ b.max * (1 + b.jitter) := by
  have hj : 0 ≤ b.jitter := by linarith
  rw [backoffNext_eq b u h1 h2]
  refine ⟨le_max_left _ _, max_le ?_ ?_⟩
  · nlinarith
  · have hraw1 : rawDelay b b.attempt ≤ b.max := rawDelay_le_max b _
    have hraw0 : 0 ≤ rawDelay b b.attempt := rawDelay_nonneg b (le_of_lt hm) hmM hf _
    have hu0 : (0 : ℚ) ≤ 1 + u := by linarith
    exact mul_le_mul hraw1 (by linarith) hu0 (by linarith)

/-! ## Claim theorems: Backoff -/

/-- C4: `Next()` computes `raw = min(m * f^n, M)` at the current attempt
count `n`, increments the counter to `n + 1`, scales `raw` by `(1 + u)`
for a jitter draw `u ∈ [-j, +j]`, and returns the product floored at `m`.
(When `j = 0` the code skips the multiplication; `u` is then forced to `0`
and the returned value coincides with the formula.) -/
theorem backoff_next_formula (b : Backoff) (u : ℚ)
    (h1 : -b.jitter ≤ u) (h2 : u ≤ b.jitter) :
    (backoffNext b u).1 = max b.min (min (b.min * b.factor ^ b.attempt) b.max * (1 + u))
    ∧ (backoffNext b u).2.attempt = b.attempt + 1 := by
  rw [backoffNext_eq b u h1 h2, rawDelay_eq_min]
  exact ⟨rfl, rfl⟩

/-- Witness for C4 at `m = 1, M = 30, f = 2, j = 1/5, n = 3, u = 1/10`. -/
theorem backoff_next_formula_witness :
    (backoffNext ⟨1, 30, 2, 1/5, 3⟩ (1/10)).1
        = max 1 (min ((1 : ℚ) * 2 ^ 3) 30 * (1 + 1/10))
    ∧ (backoffNext ⟨1, 30, 2, 1/5, 3⟩ (1/10)).2.attempt = 3 + 1 :=
  backoff_next_formula ⟨1, 30, 2, 1/5, 3⟩ (1/10) (by norm_num) (by norm_num)

/-- C6: after `Reset()`, the next `Next()` call returns a value between
the minimum `m` and `m * (1 + j)`, no matter how many `Next()` calls
preceded the `Reset()` (the attempt counter is the only state `Next`
mutates, and `Reset` clears it). -/
theorem backoff_reset_next_bounds (b : Backoff) (u : ℚ)
    (hm : 0 ≤ b.min) (hmM : b.min ≤ b.max) (h1 : -b.jitter ≤ u) (h2 : u ≤ b.jitter) :
    b.min ≤ (backoffNext (backoffReset b) u).1
    ∧ (backoffNext (backoffReset b) u).1 ≤ b.min * (1 + b.jitter) := by
  have hj : 0 ≤ b.jitter := by linarith
  have heq := backoffNext_eq (backoffReset b) u h1 h2
  have hraw : rawDelay (backoffReset b) 0 = b.min := by
    rw [rawDelay_eq_min]
    show min (b.min * b.factor ^ 0) b.max = b.min
    rw [pow_zero, mul_one, min_eq_left hmM]
  rw [show (backoffReset b).attempt = 0 from rfl] at heq
  rw [heq, hraw]
  simp only [backoffReset]
  refine ⟨le_max_left _ _, max_le (by nlinarith) ?_⟩
  have : 1 + u ≤ 1 + b.jitter := by linarith
  nlinarith

/-- Witness for C6 at `m = 2, M = 40, f = 2, j = 1/5, n = 7, u = -1/5`. -/
theorem backoff_reset_next_bounds_witness :
    (2 : ℚ) ≤ (backoffNext (backoffReset ⟨2, 40, 2, 1/5, 7⟩) (-(1/5))).1
    ∧ (backoffNext (backoffReset ⟨2, 40, 2, 1/5, 7⟩) (-(1/5))).1 ≤ 2 * (1 + 1/5) :=
  backoff_reset_next_bounds ⟨2, 40, 2, 1/5, 7⟩ (-(1/5))
    (by norm_num) (by norm_num) (by norm_num) (by norm_num)

/-- C7: across consecutive `Next()` calls without a `Reset()` the attempt
counter walks `n, n+1, n+2, …`, and the pre-jitter delay
`min(m * f^n, M)` — the expectation of the returned delay over the
zero-mean jitter draw — is monotone non-decreasing in `n` and capped at
the configured maximum `M`. -/
theorem backoff_raw_monotone (b : Backoff) (hm : 0 ≤ b.min) (hf : 1 ≤ b.factor) :
    (∀ n, rawDelay b n ≤ rawDelay b (n + 1))
    ∧ (∀ n, rawDelay b n ≤ b.max)
    ∧ (∀ n u, (backoffNext { b with attempt := n } u).2 = { b with attempt := n + 1 }) := by
  refine ⟨?_, fun n => rawDelay_le_max b n, fun n u => rfl⟩
  intro n
  rw [rawDelay_eq_min, rawDelay_eq_min]
  refine min_le_min ?_ le_rfl
  exact mul_le_mul_of_nonneg_left (pow_le_pow_right₀ hf (Nat.le_succ n)) hm

/-- Witness for C7 at `m = 1, M = 30, f = 2, j = 1/5`, `n = 2`. -/
theorem backoff_raw_monotone_witness :
    rawDelay ⟨1, 30, 2, 1/5, 0⟩ 2 ≤ rawDelay ⟨1, 30, 2, 1/5, 0⟩ 3
    ∧ rawDelay ⟨1, 30, 2, 1/5, 0⟩ 2 ≤ 30 := by
  have h := backoff_raw_monotone ⟨1, 30, 2, 1/5, 0⟩ (by norm_num) (by norm_num)
  exact ⟨h.1 2, h.2.1 2⟩

/-- C10: `NewBackoff` sanitizes its parameters: a minimum ≤ 0 becomes one
second, a maximum below the (sanitized) minimum is raised to it, a factor
below 1.1 becomes 2.0, and jitter is clamped into `[0, 1]`. Consequently
every constructed `Backoff` satisfies `0 < min ≤ max`, `factor ≥ 1.1` and
`0 ≤ jitter ≤ 1`; `Next` and `Reset` never change these fields; and at
every attempt count the value `Next` returns lies in
`[min, max * (1 + jitter)]`. -/
theorem newBackoff_sanitizes (mi ma f j : ℚ) :
    (mi ≤ 0 → (NewBackoff mi ma f j).min = timeSecond)
    ∧ (0 < mi → (NewBackoff mi ma f j).min = mi)
    ∧ (ma < (NewBackoff mi ma f j).min → (NewBackoff mi ma f j).max = (NewBackoff mi ma f j).min)
    ∧ (f < 11/10 → (NewBackoff mi ma f j).factor = 2)
    ∧ (11/10 ≤ f → (NewBackoff mi ma f j).factor = f)
    ∧ (j < 0 → (NewBackoff mi ma f j).jitter = 0)
    ∧ (1 < j → (NewBackoff mi ma f j).jitter = 1)
    ∧ 0 < (NewBackoff mi ma f j).min
    ∧ (NewBackoff mi ma f j).min ≤ (NewBackoff mi ma f j).max
    ∧ 11/10 ≤ (NewBackoff mi ma f j).factor
    ∧ 0 ≤ (NewBackoff mi ma f j).jitter
    ∧ (NewBackoff mi ma f j).jitter ≤ 1
    ∧ (∀ b : Backoff, ∀ u : ℚ,
        (backoffNext b u).2.min = b.min ∧ (backoffNext b u).2.max = b.max
        ∧ (backoffNext b u).2.factor = b.factor ∧ (backoffNext b u).2.jitter = b.jitter
        ∧ (backoffReset b).min = b.min ∧ (backoffReset b).max = b.max
        ∧ (backoffReset b).factor = b.factor ∧ (backoffReset b).jitter = b.jitter)
    ∧ (∀ (n : ℕ) (u : ℚ),
        -(NewBackoff mi ma f j).jitter ≤ u → u ≤ (NewBackoff mi ma f j).jitter →
        (NewBackoff mi ma f j).min
            ≤ (backoffNext { NewBackoff mi ma f j with attempt := n } u).1
        ∧ (backoffNext { NewBackoff mi ma f j with attempt := n } u).1
            ≤ (NewBackoff mi ma f j).max * (1 + (NewBackoff mi ma f j).jitter)) := by
  have hmin : (NewBackoff mi ma f j).min = if mi ≤ 0 then timeSecond else mi := rfl
  have hmax : (NewBackoff mi ma f j).max
      = if ma < (NewBackoff mi ma f j).min then (NewBackoff mi ma f j).min else ma := rfl
  have hfac : (NewBackoff mi ma f j).factor = if f < 11/10 then 2 else f := rfl
  have hjit : (NewBackoff mi ma f j).jitter
      = if (if j < 0 then 0 else j) > 1 then 1 else (if j < 0 then 0 else j) := rfl
  have hm : 0 < (NewBackoff mi ma f j).min := by
    rw [hmin]; split
    · rw [timeSecond]; norm_num
    · linarith [not_le.mp (by assumption : ¬ mi ≤ 0)]
  have hmM : (NewBackoff mi ma f j).min ≤ (NewBackoff mi ma f j).max := by
    rw [hmax]; split
    · exact le_refl _
    · linarith [not_lt.mp (by assumption : ¬ ma < (NewBackoff mi ma f j).min)]
  have hf : 11/10 ≤ (NewBackoff mi ma f j).factor := by
    rw [hfac]; split
    · norm_num
    · linarith [not_lt.mp (by assumption : ¬ f < 11/10)]
  have hj0 : 0 ≤ (NewBackoff mi ma f j).jitter := by
    rw [hjit]
    rcases lt_or_le j 0 with h | h
    · simp only [if_pos h]; norm_num
    · rw [if_neg (not_lt.mpr h)]
      split
      · norm_num
      · exact h
  have hj1 : (NewBackoff mi ma f j).jitter ≤ 1 := by
    rw [hjit]
    rcases lt_or_le j 0 with h | h
    · simp only [if_pos h]; norm_num
    · rw [if_neg (not_lt.mpr h)]
      split
      · exact le_refl 1
      · linarith [not_lt.mp (by assumption : ¬ j > 1)]
  refine ⟨fun h => by rw [hmin, if_pos h],
          fun h => by rw [hmin, if_neg (not_le.mpr h)],
          fun h => by rw [hmax, if_pos h],
          fun h => by rw [hfac, if_pos h],
          fun h => by rw [hfac, if_neg (not_lt.mpr h)],
          fun h => by rw [hjit]; simp only [if_pos h]; norm_num,
          fun h => by
            rw [hjit]
            have hnn : ¬ j < 0 := by linarith
            simp only [if_neg hnn]
            rw [if_pos h],
          hm, hmM, hf, hj0, hj1,
          fun b u => ⟨rfl, rfl, rfl, rfl, rfl, rfl, rfl, rfl⟩,
          fun n u h1 h2 => ?_⟩
  have := backoffNext_bounds { NewBackoff mi ma f j with attempt := n } u hm hmM
    (by linarith) hj1 h1 h2
  exact this

/-- Witness for C10 at `NewBackoff 0 (-1) 1 2` (every sanitization branch
taken), checked at attempt `5` with draw `u = 1/2`. -/
theorem newBackoff_sanitizes_witness :
    (NewBackoff 0 (-1) 1 2).min = timeSecond
    ∧ (NewBackoff 0 (-1) 1 2).max = (NewBackoff 0 (-1) 1 2).min
    ∧ (NewBackoff 0 (-1) 1 2).factor = 2
    ∧ (NewBackoff 0 (-1) 1 2).jitter = 1
    ∧ (NewBackoff 0 (-1) 1 2).min
        ≤ (backoffNext { NewBackoff 0 (-1) 1 2 with attempt := 5 } (1/2)).1
    ∧ (backoffNext { NewBackoff 0 (-1) 1 2 with attempt := 5 } (1/2)).1
        ≤ (NewBackoff 0 (-1) 1 2).max * (1 + (NewBackoff 0 (-1) 1 2).jitter) := by
  obtain ⟨s1, s2, s3, s4, s5, s6, s7, s8, s9, s10, s11, s12, s13, s14⟩ :=
    newBackoff_sanitizes 0 (-1) 1 2
  have hj : (NewBackoff 0 (-1) 1 2).jitter = 1 := s7 (by norm_num)
  have hb := s14 5 (1/2) (by rw [hj]; norm_num) (by rw [hj]; norm_num)
  exact ⟨s1 le_rfl, s3 (by rw [s1 le_rfl, timeSecond]; norm_num),
         s4 (by norm_num), hj, hb.1, hb.2⟩

/-! ## Claim theorems: notification classification -/

/-- C1: `isNotif` applies the spec's ordered rules. A top-level
`"result"` key is a subscribe acknowledgement — never activity (this rule
is checked first). With no `"result"`, a `"method"` string naming an
account push type (its lowercase form contains `"account"`) together with
a `"params"` key is activity. With no `"result"` and no `"method"`, a
`"params"` object carrying a nested `"result"` is activity. The spec's
four concrete examples evaluate accordingly. -/
theorem isNotif_classification :
    (∀ m : List (String × Json), (jLookup m "result").isSome = true →
        isNotif (some (Json.obj m)) = false)
    ∧ (∀ (m : List (String × Json)) (meth : String),
        jLookup m "result" = none →
        jLookup m "method" = some (Json.str meth) →
        hasSubstr (lowerChars meth.data) accountPat = true →
        (jLookup m "params").isSome = true →
        isNotif (some (Json.obj m)) = true)
    ∧ (∀ m p : List (String × Json),
        jLookup m "result" = none →
        jLookup m "method" = none →
        jLookup m "params" = some (Json.obj p) →
        (jLookup p "result").isSome = true →
        isNotif (some (Json.obj m)) = true)
    ∧ isNotif (some (Json.obj [("result", Json.num 42)])) = false
    ∧ isNotif (some (Json.obj [("method", Json.str "accountNotification"),
        ("params", Json.obj [("result", Json.obj [("value", Json.null)])])])) = true
    ∧ isNotif (some (Json.obj [("params",
        Json.obj [("result", Json.obj [("value", Json.null)])])])) = true
    ∧ isNotif (some (Json.obj [])) = false := by
  refine ⟨?_, ?_, ?_, rfl, rfl, rfl, rfl⟩
  · intro m h
    simp [isNotif, isNotifObj, h]
  · intro m meth h1 h2 h3 h4
    simp [isNotif, isNotifObj, h1, h2, h3, h4]
  · intro m p h1 h2 h3 h4
    simp [isNotif, isNotifObj, h1, h2, h3, h4]

/-- Witness for C1: rule 2 applied to a concrete envelope. -/
theorem isNotif_classification_witness :
    isNotif (some (Json.obj [("method", Json.str "accountNotification"),
        ("params", Json.null)])) = true :=
  isNotif_classification.2.1
    [("method", Json.str "accountNotification"), ("params", Json.null)]
    "accountNotification" rfl rfl (by decide) rfl

/-- C8: a message that does not parse as the expected envelope shape
(invalid JSON, or JSON that is not an object) classifies as `false`; the
read loop emits no notification for it and keeps processing the following
messages of the same connection unchanged; and an entire `Run` iteration
is bit-for-bit unaffected by its presence — it contributes no connection
error, no backoff step and no reconnect. -/
theorem malformed_discarded (j : Option Json) (hj : malformedMsg j = true) :
    isNotif j = false
    ∧ (∀ (addr : String) (pre post : List (Option Json)),
        readLoopNotifs addr (pre ++ j :: post) = readLoopNotifs addr (pre ++ post))
    ∧ (∀ (addr : String) (openIn : Bool) (bo : Backoff) (it : IterIn)
        (pre post : List (Option Json)),
        runIter addr openIn bo { it with reads := pre ++ j :: post }
          = runIter addr openIn bo { it with reads := pre ++ post }) := by
  have hfalse : isNotif j = false := by
    match j, hj with
    | none, _ => rfl
    | some Json.null, _ => rfl
    | some (Json.bool b), _ => rfl
    | some (Json.num n), _ => rfl
    | some (Json.str s), _ => rfl
    | some (Json.arr xs), _ => rfl
  have hreads : ∀ (addr : String) (pre post : List (Option Json)),
      readLoopNotifs addr (pre ++ j :: post) = readLoopNotifs addr (pre ++ post) := by
    intro addr pre post
    simp [readLoopNotifs, hfalse]
  refine ⟨hfalse, hreads, ?_⟩
  intro addr openIn bo it pre post
  rcases hstop : it.stopAtTop with _ | _ <;>
    rcases hdial : it.dial with _ | _ <;>
      rcases hwrite : it.write with _ | _ <;>
        simp [runIter, hstop, hdial, hwrite, hreads]

/-- Witness for C8: a bare JSON string (parses, but not an object). -/
theorem malformed_discarded_witness :
    isNotif (some (Json.str "pong")) = false
    ∧ readLoopNotifs "addr" [some (Json.str "pong")] = readLoopNotifs "addr" [] := by
  have h := malformed_discarded (some (Json.str "pong")) rfl
  exact ⟨h.1, h.2.1 "addr" [] []⟩

/-! ## Claim theorems: Stop and the Run loop -/

theorem subStopN_fixed (n : ℕ) (s : SubState) (h : s.stopOnceDone = true) :
    subStopN n s = s := by
  induction n with
  | zero => rfl
  | succ n ih => rw [subStopN, subStop, if_pos h, ih]

/-- C3: `Stop` is idempotent. Any positive number of (sequential, or by
`sync.Once` serialized concurrent) `Stop` calls equals one call:
`shouldOpen` is false afterwards, the stop channel is closed, and
`close(stopCh)` has executed exactly once — so no call panics by a double
close, and every call after the first is a no-op. -/
theorem stop_idempotent :
    (∀ s : SubState, subStop (subStop s) = subStop s)
    ∧ (∀ n : ℕ, subStopN (n + 1) newSubState = subStop newSubState)
    ∧ (subStop newSubState).shouldOpen = false
    ∧ (subStop newSubState).stopChClosed = true
    ∧ (∀ n : ℕ, (subStopN (n + 1) newSubState).closeCount = 1) := by
  have honce : ∀ s : SubState, (subStop s).stopOnceDone = true := by
    intro s
    rw [subStop]
    split
    · assumption
    · rfl
  have hN : ∀ n : ℕ, subStopN (n + 1) newSubState = subStop newSubState := by
    intro n
    rw [subStopN]
    exact subStopN_fixed n _ (honce newSubState)
  refine ⟨?_, hN, rfl, rfl, ?_⟩
  · intro s
    rw [show subStop (subStop s) = subStopN 1 (subStop s) from rfl]
    exact subStopN_fixed 1 _ (honce s)
  · intro n
    rw [hN n]
    rfl

theorem runIter_noStop (addr : String) (bo : Backoff) (it : IterIn) (h : noStop it) :
    (runIter addr false bo it).outcome = Outcome.cont
    ∧ (runIter addr false bo it).openOut = false
    ∧ (runIter addr false bo it).dialed = true := by
  obtain ⟨h1, h2, h3, h4⟩ := h
  rcases hdial : it.dial with _ | _ <;>
    rcases hwrite : it.write with _ | _ <;>
      simp [runIter, h1, h2, h3, h4, hdial, hwrite]

theorem runIter_stopFired (addr : String) (bo : Backoff) (it : IterIn) (h : stopFired it) :
    (runIter addr false bo it).outcome = Outcome.ret
    ∧ (runIter addr false bo it).openOut = false
    ∧ (runIter addr false bo it).dialed = (!it.stopAtTop) := by
  rcases h with h | ⟨h1, h2, h3⟩
  · simp [runIter, h]
  · rcases hstop : it.stopAtTop with _ | _ <;>
      rcases hdial : it.dial with _ | _ <;>
        rcases hwrite : it.write with _ | _ <;>
          simp [runIter, hstop, hdial, hwrite, h1, h2, h3]

theorem runLoop_cons_cont (addr : String) (o : Bool) (bo : Backoff) (it : IterIn)
    (rest : List IterIn) (h : (runIter addr o bo it).outcome = Outcome.cont) :
    runLoop addr o bo (it :: rest)
      = { terminated := (runLoop addr (runIter addr o bo it).openOut
            (runIter addr o bo it).boOut rest).terminated,
          openFinal := (runLoop addr (runIter addr o bo it).openOut
            (runIter addr o bo it).boOut rest).openFinal,
          boFinal := (runLoop addr (runIter addr o bo it).openOut
            (runIter addr o bo it).boOut rest).boFinal,
          dials := (if (runIter addr o bo it).dialed then 1 else 0)
            + (runLoop addr (runIter addr o bo it).openOut
                (runIter addr o bo it).boOut rest).dials,
          notifs := (runIter addr o bo it).notifs
            ++ (runLoop addr (runIter addr o bo it).openOut
                (runIter addr o bo it).boOut rest).notifs } := by
  rw [runLoop]
  simp only [h]

theorem runLoop_cons_ret (addr : String) (o : Bool) (bo : Backoff) (it : IterIn)
    (rest : List IterIn) (h : (runIter addr o bo it).outcome = Outcome.ret) :
    runLoop addr o bo (it :: rest)
      = { terminated := true, openFinal := (runIter addr o bo it).openOut,
          boFinal := (runIter addr o bo it).boOut,
          dials := if (runIter addr o bo it).dialed then 1 else 0,
          notifs := (runIter addr o bo it).notifs } := by
  rw [runLoop]
  simp only [h]

/-- C2: once the stop signal has fired (a `Stop` call or context
cancellation), the `Run` loop initiates no further dial: the loop-top
`select` and every backoff wait observe the signal. Iterations before the
stop run one dial each; the iteration at which the signal is observable
returns (with no dial at all when the signal was already visible at the
loop top), the environment after it is never consumed, and at exit the
subscriber is closed (`connectionOpen = false`). -/
theorem run_stop_no_redial (addr : String) (bo : Backoff) (pre : List IterIn)
    (itk : IterIn) (post : List IterIn)
    (hpre : ∀ it ∈ pre, noStop it) (hk : stopFired itk) :
    runLoop addr false bo (pre ++ itk :: post) = runLoop addr false bo (pre ++ [itk])
    ∧ (runLoop addr false bo (pre ++ itk :: post)).terminated = true
    ∧ (runLoop addr false bo (pre ++ itk :: post)).openFinal = false
    ∧ (runLoop addr false bo (pre ++ itk :: post)).dials
        = pre.length + (if itk.stopAtTop then 0 else 1) := by
  induction pre generalizing bo with
  | nil =>
    obtain ⟨ho, hop, hd⟩ := runIter_stopFired addr bo itk hk
    simp only [List.nil_append]
    rw [runLoop_cons_ret addr false bo itk post ho,
        runLoop_cons_ret addr false bo itk [] ho]
    refine ⟨rfl, rfl, hop, ?_⟩
    show (if (runIter addr false bo itk).dialed = true then 1 else 0)
        = List.length [] + (if itk.stopAtTop then 0 else 1)
    rw [hd, List.length_nil]
    rcases itk.stopAtTop with _ | _ <;> rfl
  | cons it pre ih =>
    obtain ⟨ho, hop, hd⟩ := runIter_noStop addr bo it (hpre it (List.mem_cons_self it pre))
    obtain ⟨e1, e2, e3, e4⟩ := ih (runIter addr false bo it).boOut
      (fun x hx => hpre x (List.mem_cons_of_mem it hx))
    rw [e1] at e2 e3 e4
    rw [List.cons_append, List.cons_append,
        runLoop_cons_cont addr false bo it (pre ++ itk :: post) ho,
        runLoop_cons_cont addr false bo it (pre ++ [itk]) ho, hop, hd, e1]
    refine ⟨rfl, e2, e3, ?_⟩
    show (if true = true then 1 else 0)
        + (runLoop addr false (runIter addr false bo it).boOut (pre ++ [itk])).dials
        = (it :: pre).length + (if itk.stopAtTop then 0 else 1)
    rw [e4, List.length_cons]
    rcases itk.stopAtTop with _ | _ <;> simp <;> omega

/-- Witness for C2: one failed-dial iteration, then stop already visible
at the loop top; a further iteration is queued but never consumed. -/
theorem run_stop_no_redial_witness :
    runLoop "w" false (NewBackoff 1 30 2 0)
        ([{ stopAtTop := false, dial := DialR.err, stopInDialWait := false,
            write := WriteR.ok, stopInWriteWait := false, reads := [],
            stopInReadWait := false, u := 0 }]
          ++ { stopAtTop := true, dial := DialR.ok, stopInDialWait := false,
               write := WriteR.ok, stopInWriteWait := false, reads := [],
               stopInReadWait := false, u := 0 } ::
            [{ stopAtTop := false, dial := DialR.ok, stopInDialWait := false,
               write := WriteR.ok, stopInWriteWait := false, reads := [],
               stopInReadWait := false, u := 0 }])
      = runLoop "w" false (NewBackoff 1 30 2 0)
        ([{ stopAtTop := false, dial := DialR.err, stopInDialWait := false,
            write := WriteR.ok, stopInWriteWait := false, reads := [],
            stopInReadWait := false, u := 0 }]
          ++ [{ stopAtTop := true, dial := DialR.ok, stopInDialWait := false,
                write := WriteR.ok, stopInWriteWait := false, reads := [],
                stopInReadWait := false, u := 0 }])
    ∧ (runLoop "w" false (NewBackoff 1 30 2 0)
        ([{ stopAtTop := false, dial := DialR.err, stopInDialWait := false,
            write := WriteR.ok, stopInWriteWait := false, reads := [],
            stopInReadWait := false, u := 0 }]
          ++ { stopAtTop := true, dial := DialR.ok, stopInDialWait := false,
               write := WriteR.ok, stopInWriteWait := false, reads := [],
               stopInReadWait := false, u := 0 } ::
            [{ stopAtTop := false, dial := DialR.ok, stopInDialWait := false,
               write := WriteR.ok, stopInWriteWait := false, reads := [],
               stopInReadWait := false, u := 0 }])).terminated = true := by
  have h := run_stop_no_redial "w" (NewBackoff 1 30 2 0)
    [{ stopAtTop := false, dial := DialR.err, stopInDialWait := false,
       write := WriteR.ok, stopInWriteWait := false, reads := [],
       stopInReadWait := false, u := 0 }]
    { stopAtTop := true, dial := DialR.ok, stopInDialWait := false,
      write := WriteR.ok, stopInWriteWait := false, reads := [],
      stopInReadWait := false, u := 0 }
    [{ stopAtTop := false, dial := DialR.ok, stopInDialWait := false,
       write := WriteR.ok, stopInWriteWait := false, reads := [],
       stopInReadWait := false, u := 0 }]
    (by
      intro it hit
      rw [List.mem_singleton] at hit
      subst hit
      exact ⟨rfl, rfl, rfl, rfl⟩)
    (Or.inl rfl)
  exact ⟨h.1, h.2.1⟩

/-- C5: a successful transport dial immediately stores
`connectionOpen = true` and resets the Backoff, both before the subscribe
request is written; hence after any stop-free sequence of failed-dial
iterations followed by one successful connect, the backoff state at the
subscribe point is the reset of the accumulated state and its attempt
counter is zero. -/
theorem connect_resets_backoff (addr : String) (bo : Backoff)
    (fails : List IterIn) (itOk : IterIn)
    (hf : ∀ it ∈ fails, it.dial = DialR.err ∧ noStop it)
    (htop : itOk.stopAtTop = false) (hok : itOk.dial = DialR.ok) :
    (∀ (b : Backoff) (it : IterIn), it.stopAtTop = false → it.dial = DialR.ok →
        (runIter addr false b it).atSubscribe = some (true, backoffReset b))
    ∧ (runIter addr false (runLoop addr false bo fails).boFinal itOk).atSubscribe
        = some (true, backoffReset (runLoop addr false bo fails).boFinal)
    ∧ (backoffReset (runLoop addr false bo fails).boFinal).attempt = 0 := by
  have hgen : ∀ (b : Backoff) (it : IterIn), it.stopAtTop = false → it.dial = DialR.ok →
      (runIter addr false b it).atSubscribe = some (true, backoffReset b) := by
    intro b it h1 h2
    rcases hwrite : it.write with _ | _ <;> simp [runIter, h1, h2, hwrite]
  exact ⟨hgen, hgen _ itOk htop hok, rfl⟩

/-- Witness for C5: three failed dials, then a successful connect. -/
theorem connect_resets_backoff_witness :
    (runIter "w" false
        (runLoop "w" false (NewBackoff 1 30 2 0)
          (List.replicate 3
            { stopAtTop := false, dial := DialR.err, stopInDialWait := false,
              write := WriteR.ok, stopInWriteWait := false, reads := [],
              stopInReadWait := false, u := 0 })).boFinal
        { stopAtTop := false, dial := DialR.ok, stopInDialWait := false,
          write := WriteR.ok, stopInWriteWait := false, reads := [],
          stopInReadWait := false, u := 0 }).atSubscribe
      = some (true, backoffReset
          (runLoop "w" false (NewBackoff 1 30 2 0)
            (List.replicate 3
              { stopAtTop := false, dial := DialR.err, stopInDialWait := false,
                write := WriteR.ok, stopInWriteWait := false, reads := [],
                stopInReadWait := false, u := 0 })).boFinal)
    ∧ (backoffReset
        (runLoop "w" false (NewBackoff 1 30 2 0)
          (List.replicate 3
            { stopAtTop := false, dial := DialR.err, stopInDialWait := false,
              write := WriteR.ok, stopInWriteWait := false, reads := [],
              stopInReadWait := false, u := 0 })).boFinal).attempt = 0 := by
  have h := connect_resets_backoff "w" (NewBackoff 1 30 2 0)
    (List.replicate 3
      { stopAtTop := false, dial := DialR.err, stopInDialWait := false,
        write := WriteR.ok, stopInWriteWait := false, reads := [],
        stopInReadWait := false, u := 0 })
    { stopAtTop := false, dial := DialR.ok, stopInDialWait := false,
      write := WriteR.ok, stopInWriteWait := false, reads := [],
      stopInReadWait := false, u := 0 }
    (by
      intro it hit
      rw [List.mem_replicate] at hit
      rw [hit.2]
      exact ⟨rfl, rfl, rfl, rfl, rfl⟩)
    rfl rfl
  exact ⟨h.2.1, h.2.2⟩

/-! ## Claim theorems: wallet store -/

theorem lookup_append_self (l : Bucket) (a v : String) :
    ((l ++ [(a, v)]).lookup a).isSome = true := by
  induction l with
  | nil => simp [List.lookup]
  | cons kv t ih =>
    rcases kv with ⟨k, w⟩
    by_cases h : a = k
    · simp [List.lookup, h]
    · simpa [List.lookup, beq_false_of_ne h] using ih

theorem filter_eq_self_of_lookup_none (l : Bucket) (a : String)
    (h : l.lookup a = none) :
    l.filter (fun kv => !(kv.1 == a)) = l := by
  induction l with
  | nil => rfl
  | cons kv t ih =>
    rcases kv with ⟨k, w⟩
    by_cases hk : a = k
    · rw [List.lookup, hk] at h
      simp at h
    · have h2 : t.lookup a = none := by
        rw [List.lookup, beq_false_of_ne hk] at h
        exact h
      have h3 : (k == a) = false := beq_false_of_ne (fun e => hk e.symm)
      simp [List.filter, h3, ih h2]

theorem strLe_trans (a b c : String) :
    (fun x y : String => decide (x ≤ y)) a b = true →
    (fun x y : String => decide (x ≤ y)) b c = true →
    (fun x y : String => decide (x ≤ y)) a c = true := by
  simp only [decide_eq_true_eq]
  exact le_trans

theorem strLe_total (a b : String) :
    ((fun x y : String => decide (x ≤ y)) a b
      || (fun x y : String => decide (x ≤ y)) b a) = true := by
  rcases le_total a b with h | h <;> simp [h]

/-- C9: the wallet store honours its collaborator contract for every
valid address (base58 decoding to exactly 32 bytes): `AddWallet` is an
idempotent insert — a second add returns success and leaves the bucket
unchanged; `RemoveWallet` succeeds whether or not the address is present,
and on an absent address it is a trivial success leaving the bucket
unchanged; `ListWallets` returns exactly the stored addresses, sorted
lexicographically. -/
theorem store_contract (addr now1 now2 : String) (st : Bucket)
    (hv : validateSolanaAddress (trimSpace addr) = Except.ok ()) :
    (∃ st1 : Bucket, addWallet false now1 addr st = Except.ok st1
        ∧ addWallet false now2 addr st1 = Except.ok st1)
    ∧ (∃ st2 : Bucket, removeWallet false addr st = Except.ok st2)
    ∧ (st.lookup (trimSpace addr) = none → removeWallet false addr st = Except.ok st)
    ∧ (∀ st' : Bucket, ∃ l : List String,
        listWallets false st' = Except.ok l
        ∧ l.Perm (st'.map Prod.fst)
        ∧ List.Sorted (fun a b : String => a ≤ b) l) := by
  refine ⟨?_, ?_, ?_, ?_⟩
  · by_cases hp : (st.lookup (trimSpace addr)).isSome
    · exact ⟨st, by simp [addWallet, hv, hp], by simp [addWallet, hv, hp]⟩
    · refine ⟨st ++ [(trimSpace addr, now1)], by simp [addWallet, hv, hp], ?_⟩
      simp [addWallet, hv, lookup_append_self st (trimSpace addr) now1]
  · exact ⟨st.filter (fun kv => !(kv.1 == trimSpace addr)), by simp [removeWallet, hv]⟩
  · intro habs
    simp [removeWallet, hv, filter_eq_self_of_lookup_none st (trimSpace addr) habs]
  · intro st'
    refine ⟨(st'.map Prod.fst).mergeSort (fun a b => a ≤ b), rfl,
            List.mergeSort_perm _ _, ?_⟩
    have hs := @List.sorted_mergeSort String (fun a b : String => decide (a ≤ b))
      strLe_trans strLe_total (st'.map Prod.fst)
    exact List.Pairwise.imp (fun h => of_decide_eq_true h) hs

/-- Witness for C9 at the system-program address (32 ones, decoding to 32
zero bytes) against the empty bucket. -/
theorem store_contract_witness :
    (∃ st1 : Bucket,
        addWallet false "t1" "11111111111111111111111111111111" [] = Except.ok st1
        ∧ addWallet false "t2" "11111111111111111111111111111111" st1 = Except.ok st1)
    ∧ (∃ st2 : Bucket,
        removeWallet false "11111111111111111111111111111111" [] = Except.ok st2)
    ∧ removeWallet false "11111111111111111111111111111111" [] = Except.ok [] := by
  have h := store_contract "11111111111111111111111111111111" "t1" "t2" [] (by rfl)
  exact ⟨h.1, h.2.1, h.2.2.1 rfl⟩

end Solwatch
